import Mathlib

/-!
Shallow embedding of `src/workflow_orchestrator.py` (the AISA workflow
orchestrator): the workflow state model, the three agent behaviours
(planner, executor, validator) and the orchestrator control loop
`execute_workflow`, together with theorems checking the natural-language
specification against this embedding.

External effects are modelled by oracles: every call to the text-generation
client (`self.co.chat`) is an `Except String ChatResponse` value supplied by
an `Oracles` record (`Except.error e` models the call raising an exception
whose description is `e`).  The event callback is modelled by returning the
list of `(event_type, payload)` pairs in emission order: the n-th element of
`RunResult.events` is the n-th synchronous invocation of the callback, so
ordering is represented definitionally.  Python dict payloads built by the
`emit` helper are association lists over `Value`.  Python floats carry only
the literals 0.0/0.5/0.6/0.75/0.95, all exactly representable, and are
modelled as rationals.  `RunResult.statusTrace` records every value assigned
to `state.status`, in program order, and `RunResult.validatorCalls` records
every invocation of the validator agent (loop index, argument), so that
"status never goes backward" and "the validator is never invoked on a failed
step" are expressible.
-/

namespace WFO

/-- The `WorkflowStatus` enum of the source. -/
inductive WorkflowStatus where
  | pending
  | in_progress
  | completed
  | failed
deriving DecidableEq

/-- One entry of `WorkflowState.execution_log`; `timestamp` is the
`datetime.now().isoformat()` string, supplied externally. -/
structure LogEntry where
  timestamp : String
  event_type : String
  message : String
  data : List (String × String)
deriving DecidableEq

/-- A response of the external generation client: `text` plus an optional
`citations` attribute (`none` models the attribute being absent, so that the
hasattr check of the source is `Option.isSome`). -/
structure ChatResponse where
  text : String
  citations : Option (List String)
deriving DecidableEq

/-- The dict returned by `ExecutorAgent.execute`.  `citations := none`
models the `citations` key being absent from the returned dict (the failure
branch of the source builds a dict without that key). -/
structure StepResult where
  status : String
  output : String
  confidence : ℚ
  citations : Option (List String)
deriving DecidableEq

/-- The dataclass `WorkflowState`.  Timestamps are opaque clock readings
(`none` = the field still holds its default `None`). -/
structure WorkflowState where
  workflow_id : String
  task : String
  status : WorkflowStatus
  current_step : Nat
  total_steps : Nat
  steps_completed : List String
  step_results : List (String × StepResult)
  execution_log : List LogEntry
  start_time : Option Nat
  end_time : Option Nat

/-- The body of `WorkflowState.log_event` acting on the log list: if the log
already holds at least 500 entries it is first cut down to its most recent
400 (`self.execution_log[-400:]`), then the new entry is appended. -/
def log_event_list (log : List LogEntry) (e : LogEntry) : List LogEntry :=
  let trimmed := if 500 ≤ log.length then log.drop (log.length - 400) else log
  trimmed ++ [e]

/-- `WorkflowState.log_event(event_type, message, data)`; the timestamp of
the new entry is an externally supplied clock string. -/
def WorkflowState.log_event (st : WorkflowState) (event_type message : String)
    (data : List (String × String)) (timestamp : String) : WorkflowState :=
  { st with execution_log :=
      log_event_list st.execution_log ⟨timestamp, event_type, message, data⟩ }

/-- The dict returned by `PlannerAgent.execute`. -/
structure Plan where
  steps : List String
  complexity : String
  output_type : String
deriving DecidableEq

/-- Splits a character list at every occurrence of `c`, mirroring the Python
split method on a one-character separator (an empty string splits to a
one-element list holding the empty string). -/
def splitCharAux (c : Char) : List Char → List Char → List String
  | [], acc => [String.mk acc.reverse]
  | x :: xs, acc =>
      if x = c then String.mk acc.reverse :: splitCharAux c xs []
      else splitCharAux c xs (x :: acc)

/-- The Python split of the response text on the newline character. -/
def splitNl (s : String) : List String := splitCharAux '\n' s.data []

/-- Removes characters satisfying `p` from both ends of a string (the shape
shared by the Python strip method with and without an argument). -/
def stripEnds (p : Char → Bool) (s : String) : String :=
  String.mk (((s.data.dropWhile p).reverse.dropWhile p).reverse)

/-- The Python no-argument strip: whitespace removed from both ends. -/
def pyStripWs (s : String) : String := stripEnds Char.isWhitespace s

/-- The Python strip on the two-character set dash and blank. -/
def pyStripDashSpace (s : String) : String :=
  stripEnds (fun c => decide (c = '-') || decide (c = ' ')) s

/-- The planner response parsing: split the text on newlines, keep the lines
that are nonempty after a whitespace strip, and map each kept line through a
dash-and-blank strip followed by a whitespace strip. -/
def parseSteps (text : String) : List String :=
  ((splitNl text).filter (fun s => decide (pyStripWs s ≠ ""))).map
    (fun s => pyStripWs (pyStripDashSpace s))

/-- `PlannerAgent.execute`: parse the generation response into steps and a
complexity class; on any failure of the generation call, fall back to the
fixed three-step plan with complexity "medium". -/
def planner_execute (call : Except String ChatResponse) : Plan :=
  match call with
  | Except.ok response =>
      let steps := parseSteps response.text
      { steps := steps
        complexity := if steps.length > 3 then "high" else "medium"
        output_type := "plan" }
  | Except.error _ =>
      { steps := ["Research the topic overview", "Analyze key trends and data",
                  "Synthesize findings"]
        complexity := "medium"
        output_type := "plan" }

/-- The executor check that the response carries a citations attribute
holding a nonempty list. -/
def hasCitations (r : ChatResponse) : Bool :=
  match r.citations with
  | some l => decide (0 < l.length)
  | none => false

/-- `ExecutorAgent.execute` on the outcome of its single generation call:
on success, status "success" with the response text, the citation-driven
confidence heuristic, and the citations list; on an exception `e`, a dict
with status "failed", the error description and confidence 0 — and no
`citations` key (`citations := none`). -/
def executor_execute (call : Except String ChatResponse) : StepResult :=
  match call with
  | Except.ok response =>
      { status := "success"
        output := response.text
        confidence := if hasCitations response then 95/100 else 75/100
        citations :=
          some (if hasCitations response then response.citations.getD [] else []) }
  | Except.error e =>
      { status := "failed", output := e, confidence := 0, citations := none }

/-- The projection of the dict handed to `ValidatorAgent.execute` that the
validator reads: the `output` and `confidence` keys, each possibly absent. -/
structure ResultInput where
  output : Option String
  confidence : Option ℚ
deriving DecidableEq

/-- The dict returned by `ValidatorAgent.execute`. -/
structure ValidationResult where
  is_valid : Bool
  confidence : ℚ
  feedback : String
deriving DecidableEq

/-- `ValidatorAgent.execute`: a pure deterministic rule.  Missing `output`
defaults to `""` and missing `confidence` to 0.5 (Python `dict.get`). -/
def validator_execute (result : ResultInput) : ValidationResult :=
  let output_len := (result.output.getD "").length
  let base_conf := result.confidence.getD (1/2)
  let is_valid := decide (output_len > 50) && decide (base_conf > (6 : ℚ)/10)
  { is_valid := is_valid
    confidence := base_conf
    feedback :=
      if is_valid then "Content verified successfully."
      else "Content too short or lacks citations." }

/-- The orchestrator passes the full executor dict to the validator; its
`output` and `confidence` keys are always present. -/
def toInput (r : StepResult) : ResultInput :=
  { output := some r.output, confidence := some r.confidence }

/-- A value stored in an event payload dict: a string, the Python None, or a
nested dict of strings (the report argument of the finish emit). -/
inductive Value where
  | str : String → Value
  | vnone : Value
  | dict : List (String × String) → Value
deriving DecidableEq

/-- One invocation of the event callback: `(event_type, payload)`. -/
abbrev Event := String × List (String × Value)

/-- The `emit` helper of `execute_workflow`: it invokes the event callback
with the event type and a payload dict of three keys, msg, role and node,
with role defaulting to info and node to None at Python call sites (the
defaults are inlined at each call site of this embedding). -/
def emit (ty : String) (msg : Value) (role : String) (node : Value) : Event :=
  (ty, [("msg", msg), ("role", Value.str role), ("node", node)])

/-- The Python percent formatting with zero decimals, for the confidence
values the source produces. -/
def fmtPercent (q : ℚ) : String := toString (round (q * 100)) ++ "%"

/-- The external world of one run: the clock used for the workflow id, the
clock read into `start_time`, and the outcome of each generation call — one
for planning, one per execution-loop iteration (indexed by loop position),
and one for the final synthesis (a function of the final prompt). -/
structure Oracles where
  clock : Nat
  startClock : Nat
  plannerCall : Except String ChatResponse
  executorCall : Nat → Except String ChatResponse
  synthesisCall : String → Except String ChatResponse

/-- One iteration of the execution loop at loop index `i` for `step`:
returns the events emitted, the lines appended to `accumulated_report`, and
the validator invocations performed, during that iteration. -/
def stepIter (orc : Oracles) (i : Nat) (step : String) :
    List Event × List String × List (Nat × StepResult) :=
  let exec_res := executor_execute (orc.executorCall i)
  let execEv := emit "activate" (Value.str ("Executing: " ++ step)) "info"
    (Value.str "executor")
  if exec_res.status = "failed" then
    ([execEv,
      emit "log" (Value.str ("⚠️ Step failed: " ++ exec_res.output)) "error"
        Value.vnone],
     [], [])
  else
    let val_res := validator_execute (toInput exec_res)
    let logEv :=
      if val_res.is_valid then
        emit "log" (Value.str ("✅ Phase " ++ toString (i + 1) ++
          " Verified (Confidence: " ++ fmtPercent exec_res.confidence ++ ")"))
          "success" Value.vnone
      else
        emit "log" (Value.str ("⚠️ Quality Warning: " ++ val_res.feedback))
          "warning" Value.vnone
    ([execEv,
      emit "activate" (Value.str "Verifying Data Integrity...") "info"
        (Value.str "validator"),
      emit "activate" (Value.str "Quality Gate Decision") "info"
        (Value.str "decision"),
      logEv],
     ["### " ++ step ++ "\n" ++ exec_res.output ++ "\n"],
     [(i, exec_res)])

/-- The execution loop over the plan steps, starting at loop index `i`;
concatenates the events, report lines and validator calls of each iteration
in order. -/
def runSteps (orc : Oracles) : List String → Nat →
    List Event × List String × List (Nat × StepResult)
  | [], _ => ([], [], [])
  | step :: rest, i =>
      ((stepIter orc i step).1 ++ (runSteps orc rest (i + 1)).1,
       (stepIter orc i step).2.1 ++ (runSteps orc rest (i + 1)).2.1,
       (stepIter orc i step).2.2 ++ (runSteps orc rest (i + 1)).2.2)

/-- The Python join of a list of strings with a separator. -/
def joinSep (sep : String) : List String → String
  | [] => ""
  | [x] => x
  | x :: y :: xs => x ++ sep ++ joinSep sep (y :: xs)

/-- The final synthesis prompt built from the accumulated report. -/
def synthesisPrompt (task : String) (orc : Oracles) : String :=
  "Based on the following research segments about \x27" ++ task ++
    "\x27, write a cohesive, professional markdown report:\n\n" ++
    joinSep "\n" (runSteps orc (planner_execute orc.plannerCall).steps 0).2.1

/-- The observable outcome of one `execute_workflow` run. -/
structure RunResult where
  events : List Event
  state : WorkflowState
  accumulated_report : List String
  validatorCalls : List (Nat × StepResult)
  statusTrace : List WorkflowStatus

/-- `WorkflowOrchestrator.execute_workflow`: create the state (status
PENDING), emit the start event, set `start_time`, plan, run the execution
loop, then either finish (emit the report, status COMPLETED) or — if the
synthesis call raises — emit the critical-failure log and set status
FAILED.  `events` is the callback-invocation sequence in emission order;
`statusTrace` lists every value assigned to `state.status` in program
order. -/
def execute_workflow (task : String) (orc : Oracles) : RunResult :=
  let steps := (planner_execute orc.plannerCall).steps
  let stepOut := runSteps orc steps 0
  let baseState : WorkflowState :=
    { workflow_id := "wf_" ++ toString orc.clock
      task := task
      status := WorkflowStatus.pending
      current_step := 0
      total_steps := steps.length
      steps_completed := []
      step_results := []
      execution_log := []
      start_time := some orc.startClock
      end_time := none }
  let headEvs : List Event :=
    [emit "status" (Value.str "System Initialized.") "info" (Value.str "start"),
     emit "activate" (Value.str "Analyzing Task Strategy...") "info"
       (Value.str "planner"),
     emit "log" (Value.str ("Strategy formed with " ++ toString steps.length ++
       " phases.")) "planner" Value.vnone]
  let synthEv := emit "activate"
    (Value.str "Synthesizing Final Intelligence Report...") "info"
    (Value.str "end")
  match orc.synthesisCall (synthesisPrompt task orc) with
  | Except.ok resp =>
      { events := headEvs ++ stepOut.1 ++
          [synthEv, emit "finish" (Value.dict [("report", resp.text)]) "info"
            Value.vnone]
        state := { baseState with status := WorkflowStatus.completed }
        accumulated_report := stepOut.2.1
        validatorCalls := stepOut.2.2
        statusTrace := [WorkflowStatus.pending, WorkflowStatus.completed] }
  | Except.error e =>
      { events := headEvs ++ stepOut.1 ++
          [synthEv, emit "log" (Value.str ("Critical System Failure: " ++ e))
            "error" Value.vnone]
        state := { baseState with status := WorkflowStatus.failed }
        accumulated_report := stepOut.2.1
        validatorCalls := stepOut.2.2
        statusTrace := [WorkflowStatus.pending, WorkflowStatus.failed] }

/-- Association-list lookup in an event payload (Python dict access). -/
def plookup : List (String × Value) → String → Option Value
  | [], _ => none
  | (k, v) :: rest, key => if k = key then some v else plookup rest key

/-- Whether an event is an `activate` event for the given node. -/
def isActivate (node : String) (e : Event) : Bool :=
  decide (e.1 = "activate" ∧ plookup e.2 "node" = some (Value.str node))

/-- Number of `activate` events for the given node in an event list. -/
def activateCount (node : String) (evs : List Event) : Nat :=
  evs.countP (isActivate node)

/-- A concrete world: planning parses one step, its execution fails,
synthesis succeeds. -/
def orcC1 : Oracles :=
  { clock := 42, startClock := 7,
    plannerCall := Except.ok { text := "A", citations := none },
    executorCall := fun _ => Except.error "x",
    synthesisCall := fun _ => Except.ok { text := "R", citations := none } }

/-- A concrete world: planning fails (fallback plan of three steps), every
step execution fails, synthesis succeeds. -/
def orcC2 : Oracles :=
  { clock := 0, startClock := 0,
    plannerCall := Except.error "down",
    executorCall := fun _ => Except.error "x",
    synthesisCall := fun _ => Except.ok { text := "R", citations := none } }

/-- A concrete world whose step executions all fail. -/
def orcC3 : Oracles :=
  { clock := 0, startClock := 0,
    plannerCall := Except.error "down",
    executorCall := fun _ => Except.error "boom",
    synthesisCall := fun _ => Except.ok { text := "R", citations := none } }

/-- A concrete world whose step executions all succeed with a short
citation-free response. -/
def orcC4 : Oracles :=
  { clock := 0, startClock := 0,
    plannerCall := Except.error "down",
    executorCall := fun _ => Except.ok { text := "good", citations := none },
    synthesisCall := fun _ => Except.ok { text := "R", citations := none } }

/-- A concrete world for inspecting the finish event of a successful run. -/
def orcC9 : Oracles :=
  { clock := 0, startClock := 0,
    plannerCall := Except.error "api down",
    executorCall := fun _ => Except.error "x",
    synthesisCall := fun _ => Except.ok { text := "REPORT", citations := none } }

/-- A second concrete world with a successful synthesis call. -/
def orcW9 : Oracles :=
  { clock := 0, startClock := 0,
    plannerCall := Except.error "down",
    executorCall := fun _ => Except.error "x",
    synthesisCall := fun _ => Except.ok { text := "R", citations := none } }

/-- A concrete log entry. -/
def entry0 : LogEntry := { timestamp := "0", event_type := "t", message := "m", data := [] }

/-- A concrete output string of length exactly 50. -/
def out50 : String := String.mk (List.replicate 50 'a')

/-- Counting activate events distributes over concatenation. -/
theorem activateCount_append (n : String) (a b : List Event) :
    activateCount n (a ++ b) = activateCount n a + activateCount n b := by
  simp [activateCount, List.countP_append]

/-- Every loop iteration emits exactly one executor activate event. -/
theorem stepIter_count_exec (orc : Oracles) (i : Nat) (step : String) :
    activateCount "executor" (stepIter orc i step).1 = 1 := by
  unfold stepIter
  by_cases h : (executor_execute (orc.executorCall i)).status = "failed"
  · rw [if_pos h]
    simp [activateCount, isActivate, emit, plookup]
  · rw [if_neg h]
    by_cases hv : (validator_execute (toInput (executor_execute (orc.executorCall i)))).is_valid <;>
      simp [activateCount, isActivate, emit, plookup, hv]

/-- A failing iteration emits no decision activate event. -/
theorem stepIter_count_dec_failed (orc : Oracles) (i : Nat) (step : String)
    (h : (executor_execute (orc.executorCall i)).status = "failed") :
    activateCount "decision" (stepIter orc i step).1 = 0 := by
  unfold stepIter
  rw [if_pos h]
  simp [activateCount, isActivate, emit, plookup]

/-- A succeeding iteration emits exactly one decision activate event. -/
theorem stepIter_count_dec_ok (orc : Oracles) (i : Nat) (step : String)
    (h : ¬ (executor_execute (orc.executorCall i)).status = "failed") :
    activateCount "decision" (stepIter orc i step).1 = 1 := by
  unfold stepIter
  rw [if_neg h]
  by_cases hv : (validator_execute (toInput (executor_execute (orc.executorCall i)))).is_valid <;>
    simp [activateCount, isActivate, emit, plookup, hv]

/-- The loop emits one executor activate event per step. -/
theorem runSteps_count_exec (orc : Oracles) :
    ∀ (steps : List String) (i : Nat),
      activateCount "executor" (runSteps orc steps i).1 = steps.length := by
  intro steps
  induction steps with
  | nil => intro i; simp [runSteps, activateCount]
  | cons s rest ih =>
      intro i
      simp only [runSteps, activateCount_append, stepIter_count_exec, ih,
        List.length_cons]
      omega

/-- The loop emits at most one decision activate event per step, with the
count strictly below the step count exactly when some step fails. -/
theorem runSteps_count_dec (orc : Oracles) :
    ∀ (steps : List String) (i : Nat),
      activateCount "decision" (runSteps orc steps i).1 ≤ steps.length ∧
      (activateCount "decision" (runSteps orc steps i).1 < steps.length ↔
        ∃ j, j < steps.length ∧
          (executor_execute (orc.executorCall (i + j))).status = "failed") := by
  intro steps
  induction steps with
  | nil => intro i; simp [runSteps, activateCount]
  | cons s rest ih =>
      intro i
      obtain ⟨ihle, ihiff⟩ := ih (i + 1)
      by_cases hf : (executor_execute (orc.executorCall i)).status = "failed"
      · rw [runSteps]
        rw [activateCount_append, stepIter_count_dec_failed orc i s hf]
        constructor
        · simp only [List.length_cons]; omega
        · constructor
          · intro _
            exact ⟨0, by simp, by simpa using hf⟩
          · intro _
            simp only [List.length_cons]; omega
      · rw [runSteps]
        rw [activateCount_append, stepIter_count_dec_ok orc i s hf]
        constructor
        · simp only [List.length_cons]; omega
        · constructor
          · intro hlt
            have hd : activateCount "decision" (runSteps orc rest (i + 1)).1 < rest.length := by
              simp only [List.length_cons] at hlt; omega
            obtain ⟨j, hj, hjf⟩ := ihiff.mp hd
            refine ⟨j + 1, by simp only [List.length_cons]; omega, ?_⟩
            have hidx : i + (j + 1) = i + 1 + j := by omega
            rw [hidx]; exact hjf
          · rintro ⟨j, hj, hjf⟩
            rcases j with _ | k
            · exact absurd (by simpa using hjf) hf
            · have hidx : i + (k + 1) = i + 1 + k := by omega
              rw [hidx] at hjf
              have hd : activateCount "decision" (runSteps orc rest (i + 1)).1 < rest.length :=
                ihiff.mpr ⟨k, by simp only [List.length_cons] at hj; omega, hjf⟩
              simp only [List.length_cons]; omega

/-- Executor and decision activate counts of a run come entirely from the
execution loop: the events outside the loop are the status event and the
activate events for the planner and end nodes, plus log or finish events. -/
theorem execute_workflow_count (task : String) (orc : Oracles) (n : String)
    (h1 : ¬ "planner" = n) (h2 : ¬ "end" = n) :
    activateCount n (execute_workflow task orc).events =
      activateCount n (runSteps orc (planner_execute orc.plannerCall).steps 0).1 := by
  unfold execute_workflow
  cases hs : orc.synthesisCall (synthesisPrompt task orc) <;>
    simp [activateCount, List.countP_append, List.countP_cons, isActivate, emit,
      plookup, h1, h2]

/-- Characterization of a loop iteration whose executor result failed. -/
theorem stepIter_failed_eq (orc : Oracles) (i : Nat) (step : String)
    (h : (executor_execute (orc.executorCall i)).status = "failed") :
    stepIter orc i step =
      ([emit "activate" (Value.str ("Executing: " ++ step)) "info" (Value.str "executor"),
        emit "log" (Value.str ("⚠️ Step failed: " ++
          (executor_execute (orc.executorCall i)).output)) "error" Value.vnone],
       [], []) := by
  unfold stepIter
  rw [if_pos h]

/-- Characterization of a loop iteration whose executor result succeeded. -/
theorem stepIter_ok_eq (orc : Oracles) (i : Nat) (step : String)
    (h : ¬ (executor_execute (orc.executorCall i)).status = "failed") :
    stepIter orc i step =
      ([emit "activate" (Value.str ("Executing: " ++ step)) "info" (Value.str "executor"),
        emit "activate" (Value.str "Verifying Data Integrity...") "info" (Value.str "validator"),
        emit "activate" (Value.str "Quality Gate Decision") "info" (Value.str "decision"),
        if (validator_execute (toInput (executor_execute (orc.executorCall i)))).is_valid then
          emit "log" (Value.str ("✅ Phase " ++ toString (i + 1) ++
            " Verified (Confidence: " ++
            fmtPercent (executor_execute (orc.executorCall i)).confidence ++ ")"))
            "success" Value.vnone
        else
          emit "log" (Value.str ("⚠️ Quality Warning: " ++
            (validator_execute (toInput (executor_execute (orc.executorCall i)))).feedback))
            "warning" Value.vnone],
       ["### " ++ step ++ "\n" ++ (executor_execute (orc.executorCall i)).output ++ "\n"],
       [(i, executor_execute (orc.executorCall i))]) := by
  unfold stepIter
  rw [if_neg h]

/-- The validator calls of a run are exactly those of the execution loop. -/
theorem execute_workflow_vcalls (task : String) (orc : Oracles) :
    (execute_workflow task orc).validatorCalls =
      (runSteps orc (planner_execute orc.plannerCall).steps 0).2.2 := by
  unfold execute_workflow
  cases hs : orc.synthesisCall (synthesisPrompt task orc) <;> simp [hs]

/-- Every validator call of the loop received the executor result of its own
index, and that result did not have status failed. -/
theorem runSteps_vcalls_mem (orc : Oracles) :
    ∀ (steps : List String) (i0 : Nat) (p : Nat × StepResult),
      p ∈ (runSteps orc steps i0).2.2 →
      p.2 = executor_execute (orc.executorCall p.1) ∧
      ¬ (executor_execute (orc.executorCall p.1)).status = "failed" := by
  intro steps
  induction steps with
  | nil => intro i0 p hp; simp [runSteps] at hp
  | cons s rest ih =>
      intro i0 p hp
      rw [runSteps] at hp
      rw [List.mem_append] at hp
      rcases hp with hp | hp
      · by_cases hf : (executor_execute (orc.executorCall i0)).status = "failed"
        · rw [stepIter_failed_eq orc i0 s hf] at hp
          simp at hp
        · rw [stepIter_ok_eq orc i0 s hf] at hp
          simp at hp
          subst hp
          exact ⟨rfl, hf⟩
      · exact ih (i0 + 1) p hp

/-- No loop iteration emits a finish event. -/
theorem stepIter_no_finish (orc : Oracles) (i : Nat) (step : String) :
    (stepIter orc i step).1.filter (fun e => decide (e.1 = "finish")) = [] := by
  by_cases hf : (executor_execute (orc.executorCall i)).status = "failed"
  · rw [stepIter_failed_eq orc i step hf]
    simp [emit]
  · rw [stepIter_ok_eq orc i step hf]
    by_cases hv : (validator_execute (toInput (executor_execute (orc.executorCall i)))).is_valid <;>
      simp [emit, hv]

/-- The execution loop emits no finish event. -/
theorem runSteps_no_finish (orc : Oracles) :
    ∀ (steps : List String) (i : Nat),
      (runSteps orc steps i).1.filter (fun e => decide (e.1 = "finish")) = [] := by
  intro steps
  induction steps with
  | nil => intro i; simp [runSteps]
  | cons s rest ih =>
      intro i
      rw [runSteps]
      simp only [List.filter_append, stepIter_no_finish, ih, List.append_nil]

/-- One `log_event` call keeps a bounded log bounded. -/
theorem log_event_list_le (log : List LogEntry) (e : LogEntry) (h : log.length ≤ 500) :
    (log_event_list log e).length ≤ 500 := by
  by_cases h5 : 500 ≤ log.length
  · simp [log_event_list, h5]
    omega
  · simp [log_event_list, h5]
    omega

/-- Claim C1 (code evaluation): on a concrete run where planning parses one
step, its execution fails and synthesis succeeds, `execute_workflow` assigns
only the statuses pending and completed — `in_progress` is never assigned to
the state — it does set `start_time`, and it leaves `end_time` unset even
though the run completed.  This contradicts the claimed transitions into
InProgress with start time set and into Completed with end time set: the
source never writes the IN_PROGRESS enum member and never writes end_time. -/
theorem C1_code_evaluation :
    (execute_workflow "t" orcC1).statusTrace
      = [WorkflowStatus.pending, WorkflowStatus.completed]
    ∧ WorkflowStatus.in_progress ∉ (execute_workflow "t" orcC1).statusTrace
    ∧ (execute_workflow "t" orcC1).state.start_time = some 7
    ∧ (execute_workflow "t" orcC1).state.status = WorkflowStatus.completed
    ∧ (execute_workflow "t" orcC1).state.end_time = none := by decide

/-- Claim C2: in every run, the number of activate events with node executor
equals the number N of parsed plan steps, the number of activate events with
node decision is at most N, and the decision count is strictly below N
exactly when some loop index has a failed executor result.  The events reach
the callback in emission order by construction: `events` is the
callback-invocation sequence of the embedding. -/
theorem C2_event_counts (task : String) (orc : Oracles) :
    activateCount "executor" (execute_workflow task orc).events
      = (planner_execute orc.plannerCall).steps.length
    ∧ activateCount "decision" (execute_workflow task orc).events
      ≤ (planner_execute orc.plannerCall).steps.length
    ∧ (activateCount "decision" (execute_workflow task orc).events
        < (planner_execute orc.plannerCall).steps.length
       ↔ ∃ j, j < (planner_execute orc.plannerCall).steps.length
           ∧ (executor_execute (orc.executorCall j)).status = "failed") := by
  have he := execute_workflow_count task orc "executor" (by decide) (by decide)
  have hd := execute_workflow_count task orc "decision" (by decide) (by decide)
  have h1 := runSteps_count_exec orc (planner_execute orc.plannerCall).steps 0
  have h2 := runSteps_count_dec orc (planner_execute orc.plannerCall).steps 0
  refine ⟨by rw [he]; exact h1, by rw [hd]; exact h2.1, ?_⟩
  rw [hd]
  simpa using h2.2

/-- Witness for C2 at a concrete world. -/
theorem C2_witness :
    activateCount "executor" (execute_workflow "t" orcC2).events
      = (planner_execute orcC2.plannerCall).steps.length :=
  (C2_event_counts "t" orcC2).1

/-- Claim C3: a step whose executor result has status failed emits exactly
the executing-step activate event followed by an error log event, contributes
no line to the aggregated report and no validator invocation, the loop
continues with the remaining steps unchanged, and across the whole run the
validator is never invoked at the failed index. -/
theorem C3_failed_step_skipped (orc : Oracles) (i : Nat) (step : String)
    (h : (executor_execute (orc.executorCall i)).status = "failed") :
    (stepIter orc i step).1 =
      [emit "activate" (Value.str ("Executing: " ++ step)) "info" (Value.str "executor"),
       emit "log" (Value.str ("⚠️ Step failed: " ++
         (executor_execute (orc.executorCall i)).output)) "error" Value.vnone]
    ∧ (stepIter orc i step).2.1 = []
    ∧ (stepIter orc i step).2.2 = []
    ∧ (∀ rest, runSteps orc (step :: rest) i =
        ((stepIter orc i step).1 ++ (runSteps orc rest (i + 1)).1,
         (runSteps orc rest (i + 1)).2.1,
         (runSteps orc rest (i + 1)).2.2))
    ∧ (∀ task res, (i, res) ∉ (execute_workflow task orc).validatorCalls) := by
  have hq := stepIter_failed_eq orc i step h
  refine ⟨by rw [hq], by rw [hq], by rw [hq], ?_, ?_⟩
  · intro rest
    rw [runSteps, hq]
    simp
  · intro task res hmem
    rw [execute_workflow_vcalls] at hmem
    exact (runSteps_vcalls_mem orc _ 0 (i, res) hmem).2 h

/-- Witness for C3 at a concrete world whose first step execution fails. -/
theorem C3_witness :
    (stepIter orcC3 0 "s").2.1 = [] ∧ (stepIter orcC3 0 "s").2.2 = [] :=
  ⟨(C3_failed_step_skipped orcC3 0 "s" rfl).2.1,
   (C3_failed_step_skipped orcC3 0 "s" rfl).2.2.1⟩

/-- Claim C4: a step whose execution succeeds appends its heading and output
to the aggregated report regardless of the validator verdict; its event
trace is the three fixed activate events followed by a single log event
whose role is success exactly when the verdict is valid and warning
otherwise — the report contribution is the same in both cases. -/
theorem C4_inclusion_regardless_of_verdict (orc : Oracles) (i : Nat) (step : String)
    (h : ¬ (executor_execute (orc.executorCall i)).status = "failed") :
    (stepIter orc i step).2.1 =
      ["### " ++ step ++ "\n" ++ (executor_execute (orc.executorCall i)).output ++ "\n"]
    ∧ ∃ logEv : Event,
        (stepIter orc i step).1 =
          [emit "activate" (Value.str ("Executing: " ++ step)) "info" (Value.str "executor"),
           emit "activate" (Value.str "Verifying Data Integrity...") "info" (Value.str "validator"),
           emit "activate" (Value.str "Quality Gate Decision") "info" (Value.str "decision"),
           logEv]
        ∧ logEv.1 = "log"
        ∧ plookup logEv.2 "role" =
            some (Value.str
              (if (validator_execute (toInput (executor_execute (orc.executorCall i)))).is_valid
               then "success" else "warning")) := by
  have hq := stepIter_ok_eq orc i step h
  refine ⟨by rw [hq], ?_⟩
  by_cases hv : (validator_execute (toInput (executor_execute (orc.executorCall i)))).is_valid
  · refine ⟨emit "log" (Value.str ("✅ Phase " ++ toString (i + 1) ++
      " Verified (Confidence: " ++
      fmtPercent (executor_execute (orc.executorCall i)).confidence ++ ")"))
      "success" Value.vnone, ?_, rfl, ?_⟩
    · rw [hq, if_pos hv]
    · rw [if_pos hv]
      simp [emit, plookup]
  · refine ⟨emit "log" (Value.str ("⚠️ Quality Warning: " ++
      (validator_execute (toInput (executor_execute (orc.executorCall i)))).feedback))
      "warning" Value.vnone, ?_, rfl, ?_⟩
    · rw [hq, if_neg hv]
    · rw [if_neg hv]
      simp [emit, plookup]

/-- Witness for C4 at a concrete world whose first step execution succeeds. -/
theorem C4_witness :
    (stepIter orcC4 0 "s").2.1 =
      ["### " ++ "s" ++ "\n" ++ (executor_execute (orcC4.executorCall 0)).output ++ "\n"] :=
  (C4_inclusion_regardless_of_verdict orcC4 0 "s" (by decide)).1

/-- Claim C5: the validator is a pure function of its input (it is a Lean
function of the input record alone, with no oracle); it returns is_valid
true exactly when the output length is strictly greater than 50 and the
confidence is strictly greater than 0.6 — so length exactly 50 yields
false — and its feedback equals one of the two fixed strings exactly
according to the verdict. -/
theorem C5_validator_rule (out : String) (conf : ℚ) :
    ((validator_execute { output := some out, confidence := some conf }).is_valid = true
      ↔ (out.length > 50 ∧ conf > (6 : ℚ)/10))
    ∧ (out.length = 50 →
        (validator_execute { output := some out, confidence := some conf }).is_valid = false)
    ∧ ((validator_execute { output := some out, confidence := some conf }).feedback
        = "Content verified successfully."
      ↔ (validator_execute { output := some out, confidence := some conf }).is_valid = true)
    ∧ ((validator_execute { output := some out, confidence := some conf }).feedback
        = "Content too short or lacks citations."
      ↔ (validator_execute { output := some out, confidence := some conf }).is_valid = false) := by
  have hfb : ∀ inp : ResultInput,
      (validator_execute inp).feedback =
        (if (validator_execute inp).is_valid then "Content verified successfully."
         else "Content too short or lacks citations.") := fun _ => rfl
  refine ⟨?_, ?_, ?_, ?_⟩
  · simp [validator_execute]
  · intro h50
    simp [validator_execute, h50]
  · rw [hfb]
    by_cases hv : (validator_execute { output := some out, confidence := some conf }).is_valid <;>
      simp [hv]
  · rw [hfb]
    by_cases hv : (validator_execute { output := some out, confidence := some conf }).is_valid <;>
      simp [hv]

/-- Witness for C5 at the boundary: output of length exactly 50 is invalid
even with high confidence. -/
theorem C5_witness :
    (validator_execute { output := some out50, confidence := some (9/10) }).is_valid
      = false :=
  (C5_validator_rule out50 (9/10)).2.1 (by decide)

/-- Claim C6: when the generation call of the planner fails, the planner
returns normally (the embedding is a total function of the call outcome)
with exactly the fixed three-step fallback plan and complexity medium. -/
theorem C6_planner_fallback (e : String) :
    planner_execute (Except.error e) =
      { steps := ["Research the topic overview", "Analyze key trends and data",
                  "Synthesize findings"],
        complexity := "medium", output_type := "plan" } := rfl

/-- Claim C7: if the log holds at least 500 entries, a `log_event` call first
trims it to its most recent 400 entries and then appends (length exactly 500
becomes 401); the log length never exceeds 500 after any sequence of calls
starting from the empty log; every call appends the new entry at the end of
a suffix of the old log, preserving order; and the state-level method is the
list-level operation on the `execution_log` field. -/
theorem C7_log_capacity :
    (∀ (log : List LogEntry) (e : LogEntry), 500 ≤ log.length →
        log_event_list log e = log.drop (log.length - 400) ++ [e])
    ∧ (∀ (log : List LogEntry) (e : LogEntry), log.length = 500 →
        (log_event_list log e).length = 401)
    ∧ (∀ (es : List LogEntry), (es.foldl log_event_list []).length ≤ 500)
    ∧ (∀ (log : List LogEntry) (e : LogEntry), ∃ n,
        log_event_list log e = log.drop n ++ [e])
    ∧ (∀ (st : WorkflowState) (ty msg ts : String) (data : List (String × String)),
        (WorkflowState.log_event st ty msg data ts).execution_log
          = log_event_list st.execution_log ⟨ts, ty, msg, data⟩) := by
  refine ⟨?_, ?_, ?_, ?_, ?_⟩
  · intro log e h
    simp [log_event_list, h]
  · intro log e h
    have h5 : 500 ≤ log.length := by omega
    simp [log_event_list, h5, h]
  · have main : ∀ (es : List LogEntry) (log : List LogEntry), log.length ≤ 500 →
        (es.foldl log_event_list log).length ≤ 500 := by
      intro es
      induction es with
      | nil => intro log h; simpa using h
      | cons e rest ih =>
          intro log h
          rw [List.foldl_cons]
          exact ih _ (log_event_list_le log e h)
    exact fun es => main es [] (by simp)
  · intro log e
    by_cases h5 : 500 ≤ log.length
    · exact ⟨log.length - 400, by simp [log_event_list, h5]⟩
    · exact ⟨0, by simp [log_event_list, h5]⟩
  · intro st ty msg ts data
    rfl

/-- Witness for C7 at a concrete log of length exactly 500. -/
theorem C7_witness :
    (log_event_list (List.replicate 500 entry0) entry0).length = 401 :=
  C7_log_capacity.2.1 (List.replicate 500 entry0) entry0 (by rw [List.length_replicate])

/-- Claim C8 counterexample: on a failing generation call the executor
result carries no citations key (`citations = none`), so the executor does
not always return the claimed shape with a citations field present. -/
theorem C8_counterexample :
    (executor_execute (Except.error "boom")).citations = none
    ∧ executor_execute (Except.error "boom")
        = { status := "failed", output := "boom", confidence := 0, citations := none } :=
  ⟨rfl, rfl⟩

/-- Claim C8 (amended): on a successful call the executor returns status
success, the response text, confidence 0.95 exactly when the response
carries one or more citations and 0.75 otherwise, and the citations list;
on any exception it returns status failed, the error description, confidence
0 and no citations key — the exception is never propagated (the embedding is
a total function of the call outcome). -/
theorem C8_result_shape (call : Except String ChatResponse) :
    (∀ r, call = Except.ok r →
        (executor_execute call).status = "success"
        ∧ (executor_execute call).output = r.text
        ∧ ((executor_execute call).confidence = 95/100 ↔ hasCitations r = true)
        ∧ ((executor_execute call).confidence = 75/100 ↔ hasCitations r = false)
        ∧ (executor_execute call).citations =
            some (if hasCitations r then r.citations.getD [] else []))
    ∧ (∀ e, call = Except.error e →
        executor_execute call =
          { status := "failed", output := e, confidence := 0, citations := none }) := by
  constructor
  · rintro r rfl
    refine ⟨rfl, rfl, ?_, ?_, rfl⟩
    · by_cases hc : hasCitations r
      · simp [executor_execute, hc]
      · simp [executor_execute, hc]
        norm_num
    · by_cases hc : hasCitations r
      · simp [executor_execute, hc]
        norm_num
      · simp [executor_execute, hc]
  · rintro e rfl
    rfl

/-- Witness for C8 at a concrete failing call. -/
theorem C8_witness :
    executor_execute (Except.error "zap")
      = { status := "failed", output := "zap", confidence := 0, citations := none } :=
  (C8_result_shape (Except.error "zap")).2 "zap" rfl

/-- Claim C9 counterexample: on a concrete successful run the single finish
event has the wrapped payload with keys msg, role and node; looking up the
report key at the top level of the payload yields none, and the payload is
not the claimed one-key mapping holding the report text. -/
theorem C9_counterexample :
    ((execute_workflow "t" orcC9).events.filter (fun e => decide (e.1 = "finish"))).map
      (fun e => e.2)
      = [[("msg", Value.dict [("report", "REPORT")]), ("role", Value.str "info"),
          ("node", Value.vnone)]]
    ∧ plookup [("msg", Value.dict [("report", "REPORT")]), ("role", Value.str "info"),
        ("node", Value.vnone)] "report" = none
    ∧ [("msg", Value.dict [("report", "REPORT")]), ("role", Value.str "info"),
        ("node", Value.vnone)]
        ≠ [("report", Value.str "REPORT")] := by decide

/-- Claim C9 (amended): whenever the synthesis call succeeds, the run emits
exactly one finish event, and its payload is the emit wrapping with the
report mapping nested under the msg key — the report text is not at the top
level of the payload mapping (looking up report there yields none). -/
theorem C9_finish_payload_wrapped (task : String) (orc : Oracles) (resp : ChatResponse)
    (h : orc.synthesisCall (synthesisPrompt task orc) = Except.ok resp) :
    (execute_workflow task orc).events.filter (fun e => decide (e.1 = "finish"))
      = [("finish", [("msg", Value.dict [("report", resp.text)]), ("role", Value.str "info"),
          ("node", Value.vnone)])]
    ∧ plookup [("msg", Value.dict [("report", resp.text)]), ("role", Value.str "info"),
        ("node", Value.vnone)] "report" = none := by
  constructor
  · unfold execute_workflow
    rw [h]
    simp [List.filter_append, runSteps_no_finish, emit]
  · simp [plookup]

/-- Witness for C9 at a concrete world with a successful synthesis call. -/
theorem C9_witness :
    (execute_workflow "t" orcW9).events.filter (fun e => decide (e.1 = "finish"))
      = [("finish", [("msg", Value.dict [("report", "R")]), ("role", Value.str "info"),
          ("node", Value.vnone)])] :=
  (C9_finish_payload_wrapped "t" orcW9 { text := "R", citations := none } rfl).1

/-- Claim C10: the validator is total on any input mapping (a Lean function,
so it never raises); a missing output key is treated as the empty string and
a missing confidence key defaults to 0.5, each forcing is_valid false, and
the returned confidence always equals the input confidence or the 0.5
default, never a recomputed value. -/
theorem C10_validator_total_defaults (inp : ResultInput) :
    (validator_execute inp).confidence = inp.confidence.getD (1/2)
    ∧ (inp.output = none → (validator_execute inp).is_valid = false)
    ∧ (inp.confidence = none → (validator_execute inp).is_valid = false)
    ∧ (inp.output = none →
        validator_execute inp
          = validator_execute { output := some "", confidence := inp.confidence }) := by
  obtain ⟨o, c⟩ := inp
  refine ⟨rfl, ?_, ?_, ?_⟩
  · rintro rfl
    simp [validator_execute]
  · rintro rfl
    simp [validator_execute]
    intro _
    norm_num
  · rintro rfl
    rfl

/-- Witness for C10 at a concrete input missing its output key. -/
theorem C10_witness :
    (validator_execute { output := none, confidence := some 1 }).is_valid = false :=
  (C10_validator_total_defaults { output := none, confidence := some 1 }).2.1 rfl

end WFO
